import Mathlib

/-!
Verification of the project-workspace creation and schema-guard protocol
(`project_creator/project_creator.py`), shallowly embedded in Lean.

Conventions of the embedding:
* the base projects directory is modelled explicitly as a filesystem state
  (`FsState`): the staging directory and the final workspace directory are
  tracked as optional `Workspace` values, other pre-existing entries as a
  name-keyed list;
* the SQLite database is modelled by its introspectable shape
  (table name → column names, in creation order) plus the row contents of the
  `schema_meta` marker table (`key TEXT PRIMARY KEY, value TEXT NOT NULL`);
* a DDL script (`canonical_schema_sql`) is modelled by its effect: whether it
  executes without error, the tables it creates, and the (SHA-256) hex digest
  of its text, kept as an opaque string attribute — only determinism of the
  digest matters to the code under verification;
* JSON manifest files are modelled as either a parse failure carrying the
  stringified error, or a parsed key/value object (JSON values that the code
  inspects are strings; other shapes are represented by an opaque constructor);
* fallible I/O is driven by an explicit environment: the index of the first
  primitive operation made to fail, plus flags for failures inside the
  rollback handler (the swallowed logging attempt and the `shutil.rmtree`
  call);
* timestamps (`_utc_now_iso`, `_date_yyyy_mm_dd_utc`) and the random
  `uuid4().hex` suffix are ambient context parameters;
* log files are modelled as the list of event names appended to them.
-/

namespace ProjectCreator

/-! ### Python string helpers -/

/-- `repr` of a Python string without special characters: wrapped in single
quotes.  Used in diagnostics built with `!r` format specifiers. -/
def pyRepr (s : String) : String := "\x27" ++ s ++ "\x27"

/-- Python str.strip(): remove leading and trailing whitespace
(structural implementation over the character list, so that proofs can
evaluate it). -/
def pyStrip (s : String) : String :=
  ⟨((s.data.dropWhile Char.isWhitespace).reverse.dropWhile Char.isWhitespace).reverse⟩

/-- Python str.rstrip(). -/
def pyRStrip (s : String) : String :=
  ⟨(s.data.reverse.dropWhile Char.isWhitespace).reverse⟩

/-- Python str.lower() (the ASCII case that can reach it here). -/
def pyLower (s : String) : String :=
  ⟨s.data.map Char.toLower⟩

/-- Character-list prefix test (structural). -/
def listIsPrefixOf : List Char → List Char → Bool
  | [], _ => true
  | _ :: _, [] => false
  | c :: cs, d :: ds => c = d && listIsPrefixOf cs ds

/-- String prefix test (structural implementation of startswith). -/
def strStartsWith (s pre : String) : Bool :=
  listIsPrefixOf pre.data s.data

/-- Characters accepted by the character class `[a-z0-9_]`. -/
def isNameChar (c : Char) : Bool :=
  ('a' ≤ c && c ≤ 'z') || ('0' ≤ c && c ≤ '9') || c = '_'

/-- All characters drawn from `[a-z0-9_]`, at least one. -/
def coreNameMatch (l : List Char) : Bool :=
  !l.isEmpty && l.all isNameChar

/-- `re.match(r"^[a-z0-9_]+$", s) is not None`, with Python semantics:
`$` matches at the end of the string *or just before a newline at the end of
the string*, so a single trailing newline character is accepted. -/
def pyNameMatch (s : String) : Bool :=
  coreNameMatch s.toList ||
    (s.toList.getLast? = some '\n' && coreNameMatch s.toList.dropLast)

/-- The whole-string reading of `^[a-z0-9_]+$`: non-empty and every character
is a lowercase letter, digit or underscore. -/
def wholeStringNameOk (s : String) : Bool :=
  coreNameMatch s.toList

/-! ### Error taxonomy (`ProjectCreatorError` hierarchy) -/

/-- The typed errors of the `ProjectCreatorError` exception hierarchy.
Each carries the `message` and `diagnostic` strings; the schema-mismatch
variant carries the structured `diff` as its diagnostic. -/
inductive PCError where
  | invalidName (message diagnostic : String)
  | invalidConfig (message diagnostic : String)
  | duplicateName (message diagnostic : String)
  | duplicateId (message diagnostic : String)
  | openError (message diagnostic : String)
  | filesystemError (message diagnostic : String)
  | schemaMismatch (message diff : String)
  | generic (message diagnostic : String)
deriving DecidableEq, Repr

/-- A Python exception as seen from `create_project`: either one of the typed
`ProjectCreatorError`s or any other exception (`OSError`,
`sqlite3.OperationalError`, …), identified by its stringification. -/
inductive Exc where
  | pce (e : PCError)
  | ext (detail : String)
deriving DecidableEq, Repr

/-- An exception as it propagates to the caller, together with its explicit
`__cause__` chain (set by `raise … from e`). -/
structure Raised where
  exc : Exc
  cause : Option Exc
deriving DecidableEq, Repr

/-- `isinstance(e, ProjectCreatorError)`. -/
def Exc.isTyped : Exc → Bool
  | .pce _ => true
  | .ext _ => false

/-- Is this exception a `FilesystemError`? -/
def Exc.isFilesystemError : Exc → Bool
  | .pce (.filesystemError _ _) => true
  | _ => false

/-! ### Configuration and validation (`ProjectConfig`, `_validate_config`) -/

/-- `ProjectConfig`.  The `base_projects_dir` path is represented by the
`FsState` an operation runs against, so it is not a field here. -/
structure ProjectConfig where
  project_name : String
  topic_prompt : String
  citation_style : String := "vancouver"
  sources : List String := ["pmc", "biorxiv"]
  notes : Option String := none
deriving DecidableEq, Repr

/-- `_validate_config`: rules checked in order, first failure wins. -/
def validateConfig (cfg : ProjectConfig) : Except PCError Unit :=
  if cfg.project_name = "" || !pyNameMatch cfg.project_name then
    .error (.invalidName "Invalid project_name. Use lowercase snake_case: a-z, 0-9, underscore."
      ("project_name=" ++ pyRepr cfg.project_name))
  else if cfg.project_name ≠ pyLower cfg.project_name then
    .error (.invalidName "project_name must be lowercase." cfg.project_name)
  else if pyStrip cfg.topic_prompt = "" then
    .error (.invalidConfig "topic_prompt must be non-empty." "")
  else if cfg.citation_style ≠ "vancouver" then
    .error (.invalidConfig "citation_style must be \x27vancouver\x27 in v1." cfg.citation_style)
  else if cfg.sources.filter (fun s => !(s = "pmc" || s = "biorxiv")) ≠ [] then
    .error (.invalidConfig "Invalid sources in v1."
      ("sources=" ++ String.intercalate "," cfg.sources))
  else
    .ok ()

/-! ### Schema contracts and the database model -/

/-- `ExpectedTable`: a table name and its column names (names only in v1). -/
structure ExpectedTable where
  name : String
  columns : List String
deriving DecidableEq, Repr

/-- `ExpectedSchema`. -/
structure ExpectedSchema where
  tables : List ExpectedTable
deriving DecidableEq, Repr

/-- The introspectable state of a SQLite database file: the user tables with
their column names in creation order, and the rows of the `schema_meta`
marker table (`key` is its primary key, so stored keys are unique). -/
structure DB where
  tables : List (String × List String)
  meta : List (String × String)
deriving DecidableEq, Repr

/-- A freshly created database file. -/
def DB.empty : DB := ⟨[], []⟩

/-- Does a table with this name exist? -/
def DB.hasTable (db : DB) (t : String) : Bool :=
  db.tables.any (fun p => p.1 = t)

/-- `SELECT value FROM schema_meta WHERE key=?` followed by `fetchone()`:
the value of the first row with the given key, if any. -/
def DB.metaLookup (db : DB) (k : String) : Option String :=
  (db.meta.find? (fun p => p.1 = k)).map (fun p => p.2)

/-- A canonical DDL script, modelled by its effect: whether `executescript`
succeeds, the tables it creates (in order) when it does, and the SHA-256 hex
digest of its (normalized) text.  The digest is an opaque attribute because
the code relies only on its determinism: the same script text always yields
the same digest. -/
structure CSql where
  valid : Bool
  effect : List (String × List String)
  hashHex : String
deriving DecidableEq, Repr

/-- `compute_schema_hash`: deterministic content digest of the script text. -/
def computeSchemaHash (sql : CSql) : String := sql.hashHex

/-- Errors arising inside the schema guard: a typed
`DatabaseSchemaMismatchError` carrying message and diff, or a raw
`sqlite3` error (e.g. `no such table`). -/
inductive SGErr where
  | mismatch (message diff : String)
  | sqlErr (detail : String)
deriving DecidableEq, Repr

/-- `INSERT OR IGNORE INTO schema_meta(key,value) VALUES (?,?)`: since `key`
is the primary key, the row is inserted only when the key is absent. -/
def insertOrIgnore (meta : List (String × String)) (k v : String) :
    List (String × String) :=
  if meta.any (fun p => p.1 = k) then meta else meta ++ [(k, v)]

/-- `upsert_schema_meta`: stamp `schema_version` and `schema_hash` with
insert-or-ignore semantics; fails like the SQL would if the marker table does
not exist. -/
def upsertSchemaMeta (db : DB) (schemaVersion schemaHash : String) :
    Except SGErr DB :=
  if db.hasTable "schema_meta" then
    .ok { db with
      meta := insertOrIgnore (insertOrIgnore db.meta "schema_version" schemaVersion)
        "schema_hash" schemaHash }
  else
    .error (.sqlErr "no such table: schema_meta")

/-- `verify_schema_meta`: read both marker rows and compare against the
expected version and hash, failing with `DatabaseSchemaMismatchError` on a
missing row or a differing value. -/
def verifySchemaMeta (db : DB) (expectedVersion expectedHash : String) :
    Except SGErr Unit :=
  if db.hasTable "schema_meta" then
    match db.metaLookup "schema_version" with
    | none => .error (.mismatch "schema_meta missing schema_version."
        "schema_meta.schema_version missing")
    | some v =>
      if v ≠ expectedVersion then
        .error (.mismatch "Unsupported schema_version in library.db."
          ("expected schema_version=" ++ pyRepr expectedVersion ++ " got " ++ pyRepr v))
      else
        match db.metaLookup "schema_hash" with
        | none => .error (.mismatch "schema_meta missing schema_hash."
            "schema_meta.schema_hash missing")
        | some h =>
          if h ≠ expectedHash then
            .error (.mismatch "schema_hash mismatch."
              ("expected schema_hash=" ++ expectedHash ++ " got " ++ h))
          else .ok ()
  else
    .error (.sqlErr "no such table: schema_meta")

/-! ### Shape validation (`_introspect_schema`, `_format_schema_diff`,
`validate_schema`) -/

/-- Lexicographic comparison of character lists (structural), by code point. -/
def listLe : List Char → List Char → Bool
  | [], _ => true
  | _ :: _, [] => false
  | a :: as, b :: bs => a.toNat < b.toNat || (a = b && listLe as bs)

/-- Python string comparison (code-point lexicographic order). -/
def strLe (a b : String) : Bool := listLe a.data b.data

/-- Insert a string into a ≤-sorted list. -/
def insertSortedStr (x : String) : List String → List String
  | [] => [x]
  | y :: ys => if strLe x y then x :: y :: ys else y :: insertSortedStr x ys

/-- Sort strings ascending (Python `sorted` on `str`). -/
def sortStr : List String → List String
  | [] => []
  | x :: xs => insertSortedStr x (sortStr xs)

/-- Insert a pair into a list sorted by first component. -/
def insertSortedByName (x : String × List String) :
    List (String × List String) → List (String × List String)
  | [] => [x]
  | y :: ys => if strLe x.1 y.1 then x :: y :: ys else y :: insertSortedByName x ys

/-- Sort name/columns pairs by name (`ORDER BY name`). -/
def sortByName : List (String × List String) → List (String × List String)
  | [] => []
  | x :: xs => insertSortedByName x (sortByName xs)

/-- `_introspect_schema`: the non-system tables (names not starting with
`sqlite_`), ordered by name, each with its column names. -/
def introspectSchema (db : DB) : List (String × List String) :=
  sortByName (db.tables.filter (fun p => !strStartsWith p.1 "sqlite_"))

/-- Python dict assignment: overwrite the value if the key is present
(keeping its position), else append. -/
def dictUpsert (m : List (String × List String)) (k : String) (v : List String) :
    List (String × List String) :=
  if m.any (fun p => p.1 = k) then
    m.map (fun p => if p.1 = k then (k, v) else p)
  else m ++ [(k, v)]

/-- The dict comprehension building the expected table-to-columns mapping,
with Python dict semantics: later tables of the same name overwrite. -/
def tableDict (ts : List ExpectedTable) : List (String × List String) :=
  ts.foldl (fun m t => dictUpsert m t.name t.columns) []

/-- First value bound to a key in an association list (Python dict lookup on
a dict built without duplicate keys). -/
def alistLookup (m : List (String × List String)) (k : String) :
    Option (List String) :=
  (m.find? (fun p => p.1 = k)).map (fun p => p.2)

/-- Keys of an association list. -/
def alistKeys (m : List (String × List String)) : List String :=
  m.map (fun p => p.1)

/-- `_format_schema_diff`, producing the report line list before joining:
a `SCHEMA_MISMATCH` banner and one section per non-empty difference list. -/
def formatSchemaDiffLines (missingTables extraTables : List String)
    (columnDiffs : List (String × List String × List String)) : List String :=
  ["SCHEMA_MISMATCH", ""]
  ++ (if missingTables ≠ [] then
        "Missing tables:" :: missingTables.map (fun t => "  - " ++ t) ++ [""]
      else [])
  ++ (if extraTables ≠ [] then
        "Unexpected tables:" :: extraTables.map (fun t => "  - " ++ t) ++ [""]
      else [])
  ++ (if columnDiffs ≠ [] then
        "Column mismatches:"
          :: (columnDiffs.flatMap (fun d =>
              ["  - " ++ d.1 ++ ":",
               "      missing: " ++ toString d.2.1,
               "      unexpected: " ++ toString d.2.2]))
          ++ [""]
      else [])

/-- `_format_schema_diff`: the joined report. -/
def formatSchemaDiff (missingTables extraTables : List String)
    (columnDiffs : List (String × List String × List String)) : String :=
  pyRStrip (String.intercalate "\n"
    (formatSchemaDiffLines missingTables extraTables columnDiffs)) ++ "\n"

/-- The `missing_tables` list of `validate_schema`. -/
def missingTablesOf (db : DB) (expected : ExpectedSchema) : List String :=
  sortStr ((alistKeys (tableDict expected.tables)).filter
    (fun t => !(alistKeys (introspectSchema db)).contains t))

/-- The `extra_tables` list of `validate_schema`. -/
def extraTablesOf (db : DB) (expected : ExpectedSchema) : List String :=
  sortStr ((alistKeys (introspectSchema db)).filter
    (fun t => !(alistKeys (tableDict expected.tables)).contains t))

/-- The `column_diffs` list of `validate_schema`: for each expected table
also present in the database, the expected columns absent from the actual
ones and the actual columns absent from the expected ones (membership only),
kept when either list is non-empty. -/
def columnDiffsOf (db : DB) (expected : ExpectedSchema) :
    List (String × List String × List String) :=
  (tableDict expected.tables).filterMap (fun p =>
    match alistLookup (introspectSchema db) p.1 with
    | none => none
    | some actCols =>
      let missingCols := p.2.filter (fun c => !actCols.contains c)
      let extraCols := actCols.filter (fun c => !p.2.contains c)
      if missingCols ≠ [] ∨ extraCols ≠ [] then some (p.1, missingCols, extraCols)
      else none)

/-- `validate_schema`: compare the introspected shape against the expected
table→column-list mapping and raise `DatabaseSchemaMismatchError` with the
formatted diff when any difference exists. -/
def validateSchema (db : DB) (expected : ExpectedSchema) : Except SGErr Unit :=
  let missingTables := missingTablesOf db expected
  let extraTables := extraTablesOf db expected
  let columnDiffs := columnDiffsOf db expected
  if missingTables ≠ [] ∨ extraTables ≠ [] ∨ columnDiffs ≠ [] then
    .error (.mismatch "Database schema mismatch."
      (formatSchemaDiff missingTables extraTables columnDiffs))
  else .ok ()

/-! ### Manifest model (`manifest.json`, `_manifest_dict`,
`_validate_manifest_v1`) -/

/-- A JSON value as inspected by the code: a string, a string array
(the `sources` list), or any other JSON shape (opaque). -/
inductive JVal where
  | s (v : String)
  | arr (vs : List String)
  | other
deriving DecidableEq, Repr

/-- A parsed JSON object (keys unique, as `json.loads` deduplicates). -/
abbrev JObj := List (String × JVal)

/-- Python `dict.get`. -/
def jget (o : JObj) (k : String) : Option JVal :=
  (o.find? (fun p => p.1 = k)).map (fun p => p.2)

/-- `m.get(k) == lit` for a string literal `lit` (non-strings and missing
keys compare unequal). -/
def jgetEq (o : JObj) (k lit : String) : Bool :=
  jget o k = some (.s lit)

/-- The string value bound to a key, with `""` as a fallback (used only
after the code has already established the binding). -/
def jgetS (o : JObj) (k : String) : String :=
  match jget o k with
  | some (.s v) => v
  | _ => ""

/-- The contents of a `manifest.json` file on disk: either text that fails
to parse as a JSON object (carrying the stringified error), or a parsed
object. -/
inductive MFile where
  | corrupt (err : String)
  | parsed (obj : JObj)
deriving DecidableEq, Repr

/-- `_manifest_dict`: the manifest object written at creation time.  `notes`
is included only when it is present and truthy (non-empty). -/
def manifestDict (cfg : ProjectConfig) (projectId createdAt : String) : JObj :=
  [("project_id", .s projectId),
   ("project_name", .s cfg.project_name),
   ("topic_prompt", .s cfg.topic_prompt),
   ("created_at", .s createdAt),
   ("sources", .arr cfg.sources),
   ("citation_style", .s cfg.citation_style),
   ("status", .s "active"),
   ("version", .s "v1")]
  ++ (match cfg.notes with
      | some n => if n = "" then [] else [("notes", .s n)]
      | none => [])

/-- The required manifest keys of `_validate_manifest_v1`. -/
def requiredManifestKeys : List String :=
  ["project_id", "project_name", "topic_prompt", "created_at",
   "sources", "citation_style", "status", "version"]

/-- `_validate_manifest_v1`: required keys present, version literal `"v1"`,
and `project_id` equal to the name of the containing directory. -/
def validateManifestV1 (m : JObj) (dirName : String) : Except PCError Unit :=
  let missing := requiredManifestKeys.filter (fun k => (jget m k).isNone)
  if missing ≠ [] then
    .error (.openError "manifest.json missing required fields."
      ("missing=" ++ String.intercalate "," missing))
  else if ¬ jgetEq m "version" "v1" then
    .error (.openError "Unsupported manifest version. Expected v1." "version mismatch")
  else if ¬ jgetEq m "project_id" dirName then
    .error (.openError "Manifest project_id does not match folder name."
      ("manifest=" ++ pyRepr (jgetS m "project_id") ++ " folder=" ++ pyRepr dirName))
  else .ok ()

/-! ### Workspace listing (`ProjectSummary`, `list_projects`) -/

/-- `ProjectSummary`.  String-typed fields that the code copies verbatim
from the manifest are kept as `JVal` since a manifest may bind them to
non-string JSON values. -/
structure ProjectSummary where
  project_id : String
  project_name : JVal
  project_dir : String
  created_at : JVal
  topic_prompt : JVal
  valid : Bool
  error : Option String
deriving DecidableEq, Repr

/-- An immediate entry of the base directory, for listing: its name, whether
it is a directory, and its `manifest.json` file if one exists. -/
structure DirEnt where
  name : String
  isDir : Bool
  manifest : Option MFile
deriving DecidableEq, Repr

/-- Insert a `DirEnt` into a list sorted by name. -/
def insertSortedEnt (x : DirEnt) : List DirEnt → List DirEnt
  | [] => [x]
  | y :: ys => if strLe x.name y.name then x :: y :: ys else y :: insertSortedEnt x ys

/-- Sort directory entries by name (`sorted(dirs, key=lambda p: p.name)`). -/
def sortEnts : List DirEnt → List DirEnt
  | [] => []
  | x :: xs => insertSortedEnt x (sortEnts xs)

/-- The invalid-summary fallback produced by the `except` arm of
`list_projects`. -/
def invalidSummary (dirName err : String) : ProjectSummary :=
  { project_id := dirName
    project_name := .s "(unknown)"
    project_dir := dirName
    created_at := .s ""
    topic_prompt := .s ""
    valid := false
    error := some err }

/-- Process one directory entry that has a manifest file, mirroring the
`try`/`except` body of `list_projects`: everything raised inside the `try`
(parse failure, the two explicit `ValueError`s, or a `KeyError` from the
required field accesses) becomes an invalid summary. -/
def listEntry (dirName : String) (mf : MFile) : ProjectSummary :=
  match mf with
  | .corrupt err => invalidSummary dirName err
  | .parsed m =>
    if ¬ jgetEq m "version" "v1" then
      invalidSummary dirName "Unsupported version"
    else if ¬ jgetEq m "project_id" dirName then
      invalidSummary dirName "project_id mismatch"
    else
      match jget m "project_name", jget m "created_at", jget m "topic_prompt" with
      | some pn, some ca, some tp =>
        { project_id := dirName
          project_name := pn
          project_dir := dirName
          created_at := ca
          topic_prompt := tp
          valid := true
          error := none }
      | none, _, _ => invalidSummary dirName (pyRepr "project_name")
      | some _, none, _ => invalidSummary dirName (pyRepr "created_at")
      | some _, some _, none => invalidSummary dirName (pyRepr "topic_prompt")

/-- `list_projects`: empty if the base directory does not exist; otherwise
process the subdirectories in name order, skipping entries without a
manifest file, never raising for a per-entry problem. -/
def listProjects (baseExists : Bool) (entries : List DirEnt) :
    List ProjectSummary :=
  if ¬ baseExists then []
  else
    (sortEnts (entries.filter (fun e => e.isDir))).filterMap (fun e =>
      match e.manifest with
      | none => none
      | some mf => some (listEntry e.name mf))

/-! ### Filesystem model for the workspace transaction -/

/-- The contents of one workspace directory (staging or promoted): created
subfolders, the events appended to `logs/project.log`, the database file,
and the manifest file. -/
structure Workspace where
  subdirs : List String
  logLines : List String
  dbFile : Option DB
  manifest : Option MFile
deriving DecidableEq, Repr

/-- A directory just created by `mkdir`. -/
def Workspace.empty : Workspace := ⟨[], [], none, none⟩

/-- The fixed subfolder set built by `_ensure_staging_tree`. -/
def stagingSubfolders : List String :=
  ["pdfs", "ingested", "indexes", "drafts", "exports", "logs"]

/-- A structurally complete workspace: all fixed subfolders, a database
file, and a manifest — what the staging directory holds when it is promoted. -/
def Workspace.isComplete (w : Workspace) : Prop :=
  w.subdirs = stagingSubfolders ∧ w.dbFile.isSome ∧ w.manifest.isSome

instance (w : Workspace) : Decidable w.isComplete := by
  unfold Workspace.isComplete; infer_instance

/-- The state of the base projects directory during one `create_project`
call: whether the base directory exists, the pre-existing entries
(name-keyed, none of them named like the staging or final directory of this
call — hypotheses of the theorems), the staging directory of this call, the
final directory of this call, and whether a database handle is open. -/
structure FsState where
  baseExists : Bool
  others : List (String × Workspace)
  staging : Option Workspace
  final : Option Workspace
  connOpen : Bool
deriving DecidableEq, Repr

/-- A base directory with no workspace in it. -/
def FsState.emptyBase : FsState := ⟨false, [], none, none, false⟩

/-- Ambient context of one `create_project` call: the configuration, the
current UTC date and timestamp, the random `uuid4().hex` suffix, the
canonical DDL script and the expected schema. -/
structure Ctx where
  cfg : ProjectConfig
  today : String
  createdAt : String
  uuidHex : String
  sql : CSql
  expected : ExpectedSchema
deriving Repr

/-- The workspace id: the UTC date, an underscore, the validated name. -/
def projectId (ctx : Ctx) : String :=
  ctx.today ++ "_" ++ ctx.cfg.project_name

/-- The staging directory name: `.tmp_`, the project id, an underscore and
the random uuid4 hex suffix. -/
def stagingName (ctx : Ctx) : String :=
  ".tmp_" ++ projectId ctx ++ "_" ++ ctx.uuidHex

/-- Does the manifest of this workspace declare version v1 and the given
project name (the per-directory predicate of `_scan_for_project_name`)? -/
def wsMatchesName (w : Workspace) (name : String) : Bool :=
  match w.manifest with
  | some (.parsed m) => jgetEq m "version" "v1" && jgetEq m "project_name" name
  | _ => false

/-- `_scan_for_project_name`: directories of the base dir whose manifest
parses, declares version v1 and the given project name.  All entries are
scanned, including a staging or final directory already present. -/
def scanForProjectName (st : FsState) (ctx : Ctx) (name : String) :
    List String :=
  if ¬ st.baseExists then []
  else
    (st.others.filter (fun p => wsMatchesName p.2 name)).map (fun p => p.1)
    ++ (match st.staging with
        | some w => if wsMatchesName w name then [stagingName ctx] else []
        | none => [])
    ++ (match st.final with
        | some w => if wsMatchesName w name then [projectId ctx] else []
        | none => [])

/-! ### The create transaction: primitive operations -/

/-- The primitive operations performed inside the `try` block of
`create_project`, in order. -/
inductive COp where
  | mkBase
  | mkStaging
  | mkSub (sub : String)
  | logS (event : String)
  | connect
  | applySchema
  | stampMeta
  | verifyMeta
  | validateShape
  | closeConn
  | writeManifest
  | checkManifest
  | renameFinal
  | logF (event : String)
deriving DecidableEq, Repr

/-- Append an event to the `logs/project.log` of a workspace
(`_write_text_line` creates the parent `logs` directory if missing). -/
def Workspace.appendLog (w : Workspace) (events : List String) : Workspace :=
  { w with
    subdirs := if w.subdirs.contains "logs" then w.subdirs else w.subdirs ++ ["logs"]
    logLines := w.logLines ++ events }

/-- One primitive operation, assuming the environment does not inject an
I/O failure; checks that fail deterministically (SQL errors, the schema
guard, manifest validation) return the raised exception. -/
def stepOp (ctx : Ctx) : COp → FsState → Except Exc FsState
  | .mkBase, st => .ok { st with baseExists := true }
  | .mkStaging, st =>
    match st.staging with
    | some _ => .error (.ext "FileExistsError")
    | none => .ok { st with baseExists := true, staging := some Workspace.empty }
  | .mkSub sub, st =>
    match st.staging with
    | none => .error (.ext "FileNotFoundError")
    | some w =>
      if w.subdirs.contains sub then .error (.ext "FileExistsError")
      else .ok { st with staging := some { w with subdirs := w.subdirs ++ [sub] } }
  | .logS event, st =>
    match st.staging with
    | none =>
      -- `mkdir(parents=True)` inside `_write_text_line` would create the
      -- staging directory itself; never reached in the modelled sequences.
      .ok { st with staging := some (Workspace.empty.appendLog [event]) }
    | some w => .ok { st with staging := some (w.appendLog [event]) }
  | .connect, st =>
    match st.staging with
    | none => .error (.ext "sqlite3.OperationalError: unable to open database file")
    | some w => .ok { st with connOpen := true, staging := some { w with dbFile := some DB.empty } }
  | .applySchema, st =>
    match st.staging with
    | none => .error (.ext "FileNotFoundError")
    | some w =>
      match w.dbFile with
      | none => .error (.ext "sqlite3.ProgrammingError")
      | some db =>
        if ctx.sql.valid then
          .ok { st with staging := some { w with dbFile := some { db with tables := ctx.sql.effect } } }
        else .error (.ext "sqlite3.OperationalError: syntax error")
  | .stampMeta, st =>
    match st.staging with
    | none => .error (.ext "FileNotFoundError")
    | some w =>
      match w.dbFile with
      | none => .error (.ext "sqlite3.ProgrammingError")
      | some db =>
        match upsertSchemaMeta db "v1" (computeSchemaHash ctx.sql) with
        | .error (.sqlErr s) => .error (.ext s)
        | .error (.mismatch m d) => .error (.pce (.schemaMismatch m d))
        | .ok db' => .ok { st with staging := some { w with dbFile := some db' } }
  | .verifyMeta, st =>
    match st.staging with
    | none => .error (.ext "FileNotFoundError")
    | some w =>
      match w.dbFile with
      | none => .error (.ext "sqlite3.ProgrammingError")
      | some db =>
        match verifySchemaMeta db "v1" (computeSchemaHash ctx.sql) with
        | .error (.sqlErr s) => .error (.ext s)
        | .error (.mismatch m d) => .error (.pce (.schemaMismatch m d))
        | .ok _ => .ok st
  | .validateShape, st =>
    match st.staging with
    | none => .error (.ext "FileNotFoundError")
    | some w =>
      match w.dbFile with
      | none => .error (.ext "sqlite3.ProgrammingError")
      | some db =>
        match validateSchema db ctx.expected with
        | .error (.sqlErr s) => .error (.ext s)
        | .error (.mismatch m d) => .error (.pce (.schemaMismatch m d))
        | .ok _ => .ok st
  | .closeConn, st => .ok { st with connOpen := false }
  | .writeManifest, st =>
    match st.staging with
    | none => .error (.ext "FileNotFoundError")
    | some w =>
      .ok { st with staging := some { w with
        manifest := some (.parsed (manifestDict ctx.cfg (projectId ctx) ctx.createdAt)) } }
  | .checkManifest, st =>
    match st.staging with
    | none => .error (.ext "FileNotFoundError")
    | some w =>
      match w.manifest with
      | none => .error (.pce (.openError "manifest.json not found." "FileNotFoundError"))
      | some (.corrupt e) =>
        .error (.pce (.openError "manifest.json is corrupt or unreadable." e))
      | some (.parsed m) =>
        match validateManifestV1 m (projectId ctx) with
        | .error pe => .error (.pce pe)
        | .ok _ => .ok st
  | .renameFinal, st =>
    match st.staging with
    | none => .error (.ext "FileNotFoundError")
    | some w =>
      match st.final with
      | some _ => .error (.ext "OSError: target exists")
      | none => .ok { st with staging := none, final := some w }
  | .logF event, st =>
    match st.final with
    | none => .ok { st with final := some (Workspace.empty.appendLog [event]) }
    | some w => .ok { st with final := some (w.appendLog [event]) }

/-- The ordered operation list of the `try` block of `create_project`. -/
def createOps : List COp :=
  [.mkBase, .mkStaging]
  ++ stagingSubfolders.map .mkSub
  ++ [.logS "create.start", .logS "create.dirs_created", .logS "create.db_init",
      .connect, .applySchema, .stampMeta, .verifyMeta, .validateShape,
      .logS "create.schema_validated", .closeConn,
      .writeManifest, .checkManifest, .renameFinal, .logF "create.finalized"]

/-! ### Failure environment, rollback and the runner -/

/-- Failure behaviour of the I/O done by the rollback handler: whether the
best-effort `create.failed` logging raises (it is swallowed), and whether
`shutil.rmtree` raises. -/
structure REnv where
  logFail : Bool
  rmFail : Bool
deriving DecidableEq, Repr

/-- Countdown to the first environment-injected I/O failure: `some 0` makes
the current primitive operation raise. -/
def decEnv : Option Nat → Option Nat
  | none => none
  | some 0 => some 0
  | some (n + 1) => some n

/-- Does the environment make the current operation fail? -/
def envFails : Option Nat → Bool
  | some 0 => true
  | _ => false

/-- `raise` / wrap at the end of the rollback handler: a typed
`ProjectCreatorError` is re-raised unchanged, anything else is wrapped in
the generic `ProjectCreatorError` with `from e`. -/
def reraise (e : Exc) : Raised :=
  match e with
  | .pce pe => ⟨.pce pe, none⟩
  | .ext s => ⟨.pce (.generic "Project creation failed." s), some (.ext s)⟩

/-- The `except` block of `create_project` (rollback): best-effort log the
failure into the staging log (failures swallowed), close any open handle,
delete the staging directory if it exists — raising `FilesystemError … from e`
when the deletion itself fails — and finally re-raise/wrap the original
error.  Returns the intermediate states it visits and the raised error. -/
def rollback (renv : REnv) (e : Exc) (st : FsState) : List FsState × Raised :=
  let st1 :=
    match st.staging with
    | some w =>
      if renv.logFail then st
      else { st with staging := some (w.appendLog ["create.failed", "traceback"]) }
    | none => st
  let st2 := { st1 with connOpen := false }
  match st2.staging with
  | some _ =>
    if renv.rmFail then
      ([st1, st2], ⟨.pce (.filesystemError "Creation failed and rollback also failed."
        "rmtree failed"), some e⟩)
    else
      ([st1, st2, { st2 with staging := none }], reraise e)
  | none => ([st1, st2], reraise e)

/-- Run the operations of the `try` block in order: stop at the first
failure (environment-injected or deterministic) and run the rollback
handler.  Returns the visited states (initial state excluded) and either
the raised error or the state on success. -/
def runOps (ctx : Ctx) (renv : REnv) :
    List COp → Option Nat → FsState → List FsState × Except Raised FsState
  | [], _, st => ([], .ok st)
  | op :: rest, env, st =>
    match (if envFails env then .error (.ext "OSError") else stepOp ctx op st) with
    | .ok st' =>
      let r := runOps ctx renv rest (decEnv env) st'
      (st' :: r.1, r.2)
    | .error e =>
      let rb := rollback renv e st
      (rb.1, .error rb.2)

/-- The states visited by a run in which no operation fails, starting with
the input state and stopping at the first deterministic failure.  Every
state visited by any run is one of these or a rollback image of one
(`runOps_trace_shape`). -/
def okStates (ctx : Ctx) : List COp → FsState → List FsState
  | [], st => [st]
  | op :: rest, st =>
    st :: (match stepOp ctx op st with
      | .ok st' => okStates ctx rest st'
      | .error _ => [])

/-- The metadata returned by a successful operation. -/
structure PInfo where
  project_id : String
  status : String
deriving DecidableEq, Repr

/-- The observable outcome of one `create_project` call: every base
directory state it made observable (in order, starting with the initial
one) and either the raised error or the returned metadata with the final
state. -/
structure RunOut where
  trace : List FsState
  result : Except Raised (PInfo × FsState)
deriving Repr

/-- `create_project`: validation and uniqueness checks (which touch
nothing), then the staged build/verify/promote sequence with rollback on
failure. -/
def createProject (ctx : Ctx) (env : Option Nat) (renv : REnv)
    (st₀ : FsState) : RunOut :=
  match validateConfig ctx.cfg with
  | .error pe => ⟨[st₀], .error ⟨.pce pe, none⟩⟩
  | .ok _ =>
    let hits := scanForProjectName st₀ ctx ctx.cfg.project_name
    if hits ≠ [] then
      ⟨[st₀], .error ⟨.pce (.duplicateName
        ("Duplicate project_name " ++ pyRepr ctx.cfg.project_name ++ " already exists.")
        ("found_in=" ++ String.intercalate "," hits)), none⟩⟩
    else if st₀.final.isSome then
      ⟨[st₀], .error ⟨.pce (.duplicateId
        ("Duplicate project_id " ++ pyRepr (projectId ctx) ++ " already exists.")
        (projectId ctx)), none⟩⟩
    else
      let r := runOps ctx renv createOps env st₀
      ⟨st₀ :: r.1, r.2.map (fun stF => (⟨projectId ctx, "created"⟩, stF))⟩

/-- The last base-directory state a run leaves behind. -/
def RunOut.lastState (ro : RunOut) (st₀ : FsState) : FsState :=
  ro.trace.getLastD st₀

/-- `open_project` on a directory of the given name (present or not in the
base directory): manifest read and validation, database presence, then the
schema guard (marker first, shape second).  Never mutates anything. -/
def openProject (expected : ExpectedSchema) (sql : CSql) (dirName : String)
    (dirWs : Option Workspace) : Except Exc PInfo :=
  match dirWs with
  | none => .error (.pce (.openError "manifest.json not found." "FileNotFoundError"))
  | some ws =>
    match ws.manifest with
    | none => .error (.pce (.openError "manifest.json not found." "FileNotFoundError"))
    | some (.corrupt e) =>
      .error (.pce (.openError "manifest.json is corrupt or unreadable." e))
    | some (.parsed m) =>
      match validateManifestV1 m dirName with
      | .error pe => .error (.pce pe)
      | .ok _ =>
        match ws.dbFile with
        | none => .error (.pce (.openError "library.db not found." dirName))
        | some db =>
          match verifySchemaMeta db "v1" (computeSchemaHash sql) with
          | .error (.sqlErr s) => .error (.ext s)
          | .error (.mismatch msg d) => .error (.pce (.schemaMismatch msg d))
          | .ok _ =>
            match validateSchema db expected with
            | .error (.sqlErr s) => .error (.ext s)
            | .error (.mismatch msg d) => .error (.pce (.schemaMismatch msg d))
            | .ok _ => .ok ⟨jgetS m "project_id", "opened"⟩

/-! ### The canonical schema of the repository
(`project_overview/canonical_schema.py`) -/

/-- The tables created by `CANONICAL_SCHEMA_SQL`, in script order, with
their column names (`CREATE INDEX` statements create no table). -/
def canonicalTables : List (String × List String) :=
  [("schema_meta", ["key", "value"]),
   ("papers", ["paper_id", "source", "title", "authors_json", "year", "venue",
     "doi", "pmcid", "landing_url", "pdf_url", "pdf_path", "sha256", "status",
     "status_detail", "added_at", "updated_at"]),
   ("ingests", ["paper_id", "ingested_json_path", "pages", "sections_json",
     "created_at", "updated_at"]),
   ("chunks", ["chunk_id", "paper_id", "page_num", "section", "text",
     "start_char", "end_char", "embedding_ref", "created_at"]),
   ("citations", ["cite_id", "paper_id", "chunk_id", "page_num", "section",
     "excerpt", "start_char", "end_char", "excerpt_sha256", "created_at"]),
   ("drafts", ["draft_id", "title", "doc_type", "content_md", "citation_style",
     "created_at", "updated_at"]),
   ("draft_citation_map", ["draft_id", "ref_number", "cite_id"]),
   ("indexes", ["index_id", "kind", "path", "params_json", "created_at",
     "updated_at"])]

/-- `CANONICAL_SCHEMA_SQL` as a modelled DDL script: it executes without
error, creates `canonicalTables`, and hashes to some fixed digest (the
concrete hex string is irrelevant; only its determinism matters). -/
def canonicalCSql : CSql :=
  { valid := true, effect := canonicalTables, hashHex := "c4n0n1c4lh4sh" }

/-- `EXPECTED_SCHEMA`, transcribed from its own literal in the source (it
is stated there independently of the DDL text). -/
def expectedCanonical : ExpectedSchema :=
  { tables :=
    [⟨"schema_meta", ["key", "value"]⟩,
     ⟨"papers", ["paper_id", "source", "title", "authors_json", "year", "venue",
       "doi", "pmcid", "landing_url", "pdf_url", "pdf_path", "sha256", "status",
       "status_detail", "added_at", "updated_at"]⟩,
     ⟨"ingests", ["paper_id", "ingested_json_path", "pages", "sections_json",
       "created_at", "updated_at"]⟩,
     ⟨"chunks", ["chunk_id", "paper_id", "page_num", "section", "text",
       "start_char", "end_char", "embedding_ref", "created_at"]⟩,
     ⟨"citations", ["cite_id", "paper_id", "chunk_id", "page_num", "section",
       "excerpt", "start_char", "end_char", "excerpt_sha256", "created_at"]⟩,
     ⟨"drafts", ["draft_id", "title", "doc_type", "content_md", "citation_style",
       "created_at", "updated_at"]⟩,
     ⟨"draft_citation_map", ["draft_id", "ref_number", "cite_id"]⟩,
     ⟨"indexes", ["index_id", "kind", "path", "params_json", "created_at",
       "updated_at"]⟩] }

/-! ## Shared material for the theorems -/

instance {ε α : Type} [DecidableEq ε] [DecidableEq α] : DecidableEq (Except ε α) := by
  intro x y
  cases x <;> cases y
  case error.error u v =>
    exact if h : u = v then isTrue (by rw [h])
      else isFalse (fun c => h (by injection c))
  case error.ok u v => exact isFalse (fun c => by injection c)
  case ok.error u v => exact isFalse (fun c => by injection c)
  case ok.ok u v =>
    exact if h : u = v then isTrue (by rw [h])
      else isFalse (fun c => h (by injection c))

/-- Substring containment: used to state that a diagnostic message names a
given value. -/
def strContains (s sub : String) : Prop := sub.data <:+: s.data

instance (s sub : String) : Decidable (strContains s sub) := by
  unfold strContains; infer_instance

theorem strContains_of_append (a mid b : String) :
    strContains (a ++ mid ++ b) mid :=
  ⟨a.data, b.data, by simp [strContains, String.data_append]⟩

theorem strContains_of_append_left (a mid : String) :
    strContains (a ++ mid) mid :=
  ⟨a.data, [], by simp [strContains, String.data_append]⟩

/-- A valid configuration used to instantiate universally quantified
theorems (mirrors the fixture of the test-suite). -/
def cfgA : ProjectConfig :=
  { project_name := "bladder_smc_strain"
    topic_prompt := "Effects of cyclic mechanical strain"
    citation_style := "vancouver"
    sources := ["pmc", "biorxiv"]
    notes := some "Initial literature exploration" }

/-- A concrete creation context for `cfgA` with the canonical schema. -/
def ctxA : Ctx :=
  { cfg := cfgA
    today := "2026-10-12"
    createdAt := "2026-10-12T00:00:00Z"
    uuidHex := "0123abcd"
    sql := canonicalCSql
    expected := expectedCanonical }

/-! ## Claim C6 — the marker stamp is write-once -/

theorem any_insertOrIgnore_self (m : List (String × String)) (k v : String) :
    (insertOrIgnore m k v).any (fun p => p.1 = k) = true := by
  unfold insertOrIgnore
  split
  · assumption
  · simp

theorem any_insertOrIgnore_mono (m : List (String × String)) (k v k₀ : String)
    (h : m.any (fun p => p.1 = k₀) = true) :
    (insertOrIgnore m k v).any (fun p => p.1 = k₀) = true := by
  unfold insertOrIgnore
  split
  · exact h
  · simp [h]

theorem insertOrIgnore_of_present (m : List (String × String)) (k v : String)
    (h : m.any (fun p => p.1 = k) = true) :
    insertOrIgnore m k v = m := by
  unfold insertOrIgnore
  simp [h]

/-- Claim C6: `upsert_schema_meta` only inserts the marker rows when absent,
so once a first call has stamped the database, a second call — with any
version and hash arguments — returns the database unchanged. -/
theorem upsert_schema_meta_write_once (db : DB) (v h v₂ h₂ : String) (db' : DB)
    (hfirst : upsertSchemaMeta db v h = .ok db') :
    upsertSchemaMeta db' v₂ h₂ = .ok db' := by
  unfold upsertSchemaMeta at hfirst
  by_cases ht : db.hasTable "schema_meta"
  · rw [if_pos ht] at hfirst
    have hdb' : ({ db with
        meta := insertOrIgnore (insertOrIgnore db.meta "schema_version" v)
          "schema_hash" h } : DB) = db' := by
      exact Except.ok.inj hfirst
    subst hdb'
    have htab' : DB.hasTable { db with
        meta := insertOrIgnore (insertOrIgnore db.meta "schema_version" v)
          "schema_hash" h } "schema_meta" = true := ht
    have hv : (insertOrIgnore (insertOrIgnore db.meta "schema_version" v)
        "schema_hash" h).any (fun p => p.1 = "schema_version") = true :=
      any_insertOrIgnore_mono _ _ _ _ (any_insertOrIgnore_self _ _ _)
    have hh : (insertOrIgnore (insertOrIgnore db.meta "schema_version" v)
        "schema_hash" h).any (fun p => p.1 = "schema_hash") = true :=
      any_insertOrIgnore_self _ _ _
    unfold upsertSchemaMeta
    rw [if_pos htab']
    simp [insertOrIgnore_of_present _ _ _ hv, insertOrIgnore_of_present _ _ _ hh]
  · rw [if_neg ht] at hfirst
    exact absurd hfirst (by simp)

/-- Witness for C6 at a concrete database. -/
theorem upsert_schema_meta_write_once_witness :
    upsertSchemaMeta ⟨[("schema_meta", ["key", "value"])], []⟩ "v1" "h" =
      .ok ⟨[("schema_meta", ["key", "value"])],
        [("schema_version", "v1"), ("schema_hash", "h")]⟩ ∧
    upsertSchemaMeta ⟨[("schema_meta", ["key", "value"])],
        [("schema_version", "v1"), ("schema_hash", "h")]⟩ "v9" "h9" =
      .ok ⟨[("schema_meta", ["key", "value"])],
        [("schema_version", "v1"), ("schema_hash", "h")]⟩ :=
  ⟨by decide,
    upsert_schema_meta_write_once ⟨[("schema_meta", ["key", "value"])], []⟩
      "v1" "h" "v9" "h9"
      ⟨[("schema_meta", ["key", "value"])],
        [("schema_version", "v1"), ("schema_hash", "h")]⟩ (by decide)⟩

/-! ## Claim C9 — the fixed subfolder set -/

/-- Claim C9, counterexample: the staging subfolder set of the code does not
contain `artifact-inbox` and is not the set named by the claim — the code
builds `pdfs`, `ingested`, `indexes`, `drafts`, `exports`, `logs`. -/
theorem staging_subfolders_counterexample :
    stagingSubfolders.contains "artifact-inbox" = false ∧
    stagingSubfolders ≠
      ["artifact-inbox", "ingested-output", "index-storage",
       "drafts", "exports", "logs"] := by
  decide

/-- Claim C9, amended: the fixed subfolder set built under the staging
directory is exactly `pdfs`, `ingested`, `indexes`, `drafts`, `exports`,
`logs`, and a successfully promoted workspace carries exactly these
subfolders. -/
theorem staging_subfolders_spec :
    stagingSubfolders = ["pdfs", "ingested", "indexes", "drafts", "exports", "logs"]
    ∧ ((createProject ctxA none ⟨false, false⟩ FsState.emptyBase).result.map
        (fun x => (x.2.final).map Workspace.subdirs))
      = .ok (some stagingSubfolders) :=
  ⟨rfl, by rfl⟩

/-! ## Claim C5 — verify_schema_meta -/

/-- Claim C5, counterexample: when the `schema_version` marker row is
missing, `verify_schema_meta` raises `SchemaMismatch` with a diagnostic that
names the missing field but does not state the expected versus the actual
value — with expected version `v1` the diagnostic does not even contain the
string `v1`. -/
theorem verify_schema_meta_counterexample :
    verifySchemaMeta ⟨[("schema_meta", ["key", "value"])], []⟩ "v1" "hash1" =
      .error (.mismatch "schema_meta missing schema_version."
        "schema_meta.schema_version missing")
    ∧ ¬ strContains "schema_meta.schema_version missing" "v1" := by
  constructor
  · decide
  · decide

/-- Claim C5, amended: given the marker table exists, `verify_schema_meta`
raises `SchemaMismatch` exactly when the `schema_version` row is missing or
differs from the expected version, or the `schema_hash` row is missing or
differs from the expected hash; a value-mismatch failure names the field at
fault and states the expected versus the actual value, while a missing-row
failure names the missing field (without an expected/actual pair). -/
theorem verify_schema_meta_spec (db : DB) (expV expH : String)
    (htab : db.hasTable "schema_meta" = true) :
    ((∃ m d, verifySchemaMeta db expV expH = .error (.mismatch m d)) ↔
      (db.metaLookup "schema_version" ≠ some expV ∨
       db.metaLookup "schema_hash" ≠ some expH))
    ∧ (db.metaLookup "schema_version" = none →
        verifySchemaMeta db expV expH = .error (.mismatch
          "schema_meta missing schema_version." "schema_meta.schema_version missing"))
    ∧ (∀ v, db.metaLookup "schema_version" = some v → v ≠ expV →
        verifySchemaMeta db expV expH = .error (.mismatch
          "Unsupported schema_version in library.db."
          ("expected schema_version=" ++ pyRepr expV ++ " got " ++ pyRepr v))
        ∧ strContains ("expected schema_version=" ++ pyRepr expV ++ " got " ++ pyRepr v) expV
        ∧ strContains ("expected schema_version=" ++ pyRepr expV ++ " got " ++ pyRepr v) v)
    ∧ (db.metaLookup "schema_version" = some expV →
        db.metaLookup "schema_hash" = none →
        verifySchemaMeta db expV expH = .error (.mismatch
          "schema_meta missing schema_hash." "schema_meta.schema_hash missing"))
    ∧ (∀ h, db.metaLookup "schema_version" = some expV →
        db.metaLookup "schema_hash" = some h → h ≠ expH →
        verifySchemaMeta db expV expH = .error (.mismatch
          "schema_hash mismatch." ("expected schema_hash=" ++ expH ++ " got " ++ h))
        ∧ strContains ("expected schema_hash=" ++ expH ++ " got " ++ h) expH
        ∧ strContains ("expected schema_hash=" ++ expH ++ " got " ++ h) h) := by
  refine ⟨?_, ?_, ?_, ?_, ?_⟩
  · rcases hv : db.metaLookup "schema_version" with _ | v
    · simp [verifySchemaMeta, htab, hv]
    · rcases hh : db.metaLookup "schema_hash" with _ | h
      · by_cases hve : v = expV
        · subst hve; simp [verifySchemaMeta, htab, hv, hh]
        · simp [verifySchemaMeta, htab, hv, hh, hve]
      · by_cases hve : v = expV
        · subst hve
          by_cases hhe : h = expH
          · subst hhe; simp [verifySchemaMeta, htab, hv, hh]
          · simp [verifySchemaMeta, htab, hv, hh, hhe]
        · simp [verifySchemaMeta, htab, hv, hve]
  · intro hv
    simp [verifySchemaMeta, htab, hv]
  · intro v hv hve
    refine ⟨?_, ?_, ?_⟩
    · simp [verifySchemaMeta, htab, hv, hve]
    · exact ⟨("expected schema_version=" ++ "\x27").data,
        ("\x27" ++ " got " ++ pyRepr v).data,
        by simp [pyRepr, String.data_append]⟩
    · exact ⟨("expected schema_version=" ++ pyRepr expV ++ " got " ++ "\x27").data,
        ("\x27" : String).data,
        by simp [pyRepr, String.data_append]⟩
  · intro hv hh
    simp [verifySchemaMeta, htab, hv, hh]
  · intro h hv hh hhe
    refine ⟨?_, ?_, ?_⟩
    · simp [verifySchemaMeta, htab, hv, hh, hhe]
    · exact ⟨("expected schema_hash=" : String).data, (" got " ++ h).data,
        by simp [String.data_append]⟩
    · exact ⟨("expected schema_hash=" ++ expH ++ " got ").data, ([] : List Char),
        by simp [String.data_append]⟩

/-- Witness for C5 at a concrete database with a wrong stored version. -/
theorem verify_schema_meta_spec_witness :
    (DB.hasTable ⟨[("schema_meta", ["key", "value"])],
        [("schema_version", "v2"), ("schema_hash", "hash1")]⟩ "schema_meta" = true)
    ∧ ((∃ m d, verifySchemaMeta ⟨[("schema_meta", ["key", "value"])],
          [("schema_version", "v2"), ("schema_hash", "hash1")]⟩ "v1" "hash1" =
            .error (.mismatch m d)) ↔
        (DB.metaLookup ⟨[("schema_meta", ["key", "value"])],
            [("schema_version", "v2"), ("schema_hash", "hash1")]⟩ "schema_version" ≠ some "v1" ∨
         DB.metaLookup ⟨[("schema_meta", ["key", "value"])],
            [("schema_version", "v2"), ("schema_hash", "hash1")]⟩ "schema_hash" ≠ some "hash1")) :=
  ⟨by decide,
    (verify_schema_meta_spec ⟨[("schema_meta", ["key", "value"])],
      [("schema_version", "v2"), ("schema_hash", "hash1")]⟩ "v1" "hash1" (by decide)).1⟩

/-! ## Claim C4 — validate_schema -/

/-- The non-system tables of the database, as stored. -/
def dbShape (db : DB) : List (String × List String) :=
  db.tables.filter (fun p => !strStartsWith p.1 "sqlite_")

/-- The specified success condition of `validate_schema`: the non-system
tables and the expected table→column-list mapping carry the same table
names, and for each table present in both, the same column names by
membership only (order-independent, type-independent). -/
def schemaAgrees (db : DB) (expected : ExpectedSchema) : Prop :=
  (∀ t, t ∈ alistKeys (tableDict expected.tables) ↔ t ∈ alistKeys (dbShape db))
  ∧ (∀ t ecols acols, (t, ecols) ∈ tableDict expected.tables →
      (t, acols) ∈ dbShape db → (∀ c, c ∈ ecols ↔ c ∈ acols))

theorem insertSortedStr_ne_nil (x : String) (l : List String) :
    insertSortedStr x l ≠ [] := by
  cases l with
  | nil => simp [insertSortedStr]
  | cons y ys =>
    unfold insertSortedStr
    split <;> simp

theorem sortStr_eq_nil_iff (l : List String) : sortStr l = [] ↔ l = [] := by
  cases l with
  | nil => simp [sortStr]
  | cons x xs =>
    simp only [sortStr]
    exact ⟨fun h => absurd h (insertSortedStr_ne_nil _ _), fun h => by simp at h⟩

theorem insertSortedByName_perm (x : String × List String)
    (l : List (String × List String)) :
    List.Perm (insertSortedByName x l) (x :: l) := by
  induction l with
  | nil => simp [insertSortedByName]
  | cons y ys ih =>
    unfold insertSortedByName
    split
    · exact List.Perm.refl _
    · exact ((ih.cons y).trans (List.Perm.swap x y ys))

theorem sortByName_perm (l : List (String × List String)) :
    List.Perm (sortByName l) l := by
  induction l with
  | nil => simp [sortByName]
  | cons x xs ih =>
    exact (insertSortedByName_perm x (sortByName xs)).trans (ih.cons x)

theorem mem_introspect_iff (db : DB) (p : String × List String) :
    p ∈ introspectSchema db ↔ p ∈ dbShape db :=
  (sortByName_perm (dbShape db)).mem_iff

theorem keys_introspect_mem_iff (db : DB) (t : String) :
    t ∈ alistKeys (introspectSchema db) ↔ t ∈ alistKeys (dbShape db) :=
  ((sortByName_perm (dbShape db)).map Prod.fst).mem_iff

theorem keys_introspect_nodup (db : DB)
    (hN : (alistKeys (dbShape db)).Nodup) :
    (alistKeys (introspectSchema db)).Nodup :=
  (((sortByName_perm (dbShape db)).map Prod.fst).nodup_iff).mpr hN

theorem alistLookup_eq_some_iff (m : List (String × List String))
    (hN : (alistKeys m).Nodup) (t : String) (cs : List String) :
    alistLookup m t = some cs ↔ (t, cs) ∈ m := by
  induction m with
  | nil => simp [alistLookup]
  | cons p ps ih =>
    obtain ⟨k, v⟩ := p
    simp only [alistKeys, List.map_cons, List.nodup_cons] at hN
    by_cases hk : k = t
    · subst hk
      rw [show alistLookup ((k, v) :: ps) k = some v from by
        simp [alistLookup, List.find?_cons_of_pos]]
      simp only [Option.some.injEq, List.mem_cons, Prod.mk.injEq]
      constructor
      · rintro rfl; simp
      · rintro (⟨-, rfl⟩ | hmem)
        · rfl
        · exact absurd (List.mem_map_of_mem Prod.fst hmem) hN.1
    · rw [show alistLookup ((k, v) :: ps) t = alistLookup ps t from by
        simp [alistLookup, List.find?_cons_of_neg, hk]]
      rw [ih hN.2]
      simp only [List.mem_cons, Prod.mk.injEq]
      constructor
      · exact Or.inr
      · rintro (⟨h1, -⟩ | hmem)
        · exact absurd h1.symm hk
        · exact hmem

theorem alistLookup_isSome_of_mem_keys (m : List (String × List String))
    (t : String) (h : t ∈ alistKeys m) : ∃ cs, alistLookup m t = some cs := by
  induction m with
  | nil => simp [alistKeys] at h
  | cons p ps ih =>
    by_cases hk : p.1 = t
    · exact ⟨p.2, by simp [alistLookup, List.find?_cons_of_pos, hk]⟩
    · simp only [alistKeys, List.map_cons, List.mem_cons] at h
      rcases h with h | h
      · exact absurd h.symm hk
      · obtain ⟨cs, hcs⟩ := ih h
        exact ⟨cs, by
          rw [show alistLookup (p :: ps) t = alistLookup ps t from by
            simp [alistLookup, List.find?_cons_of_neg, hk]]
          exact hcs⟩

theorem alistLookup_mem (m : List (String × List String)) (t : String)
    (cs : List String) (h : alistLookup m t = some cs) : (t, cs) ∈ m := by
  induction m with
  | nil => simp [alistLookup] at h
  | cons p ps ih =>
    by_cases hk : p.1 = t
    · subst hk
      rw [show alistLookup (p :: ps) p.1 = some p.2 from by
        simp [alistLookup, List.find?_cons_of_pos]] at h
      simp only [Option.some.injEq] at h
      subst h
      exact List.mem_cons_self p ps
    · rw [show alistLookup (p :: ps) t = alistLookup ps t from by
        simp [alistLookup, List.find?_cons_of_neg, hk]] at h
      exact List.mem_cons_of_mem _ (ih h)

theorem empty_diffs_iff_agrees (db : DB) (expected : ExpectedSchema)
    (hN : (alistKeys (dbShape db)).Nodup) :
    (missingTablesOf db expected = [] ∧ extraTablesOf db expected = [] ∧
      columnDiffsOf db expected = []) ↔ schemaAgrees db expected := by
  have hNi := keys_introspect_nodup db hN
  constructor
  · rintro ⟨hm, he, hc⟩
    rw [missingTablesOf, sortStr_eq_nil_iff, List.filter_eq_nil_iff] at hm
    rw [extraTablesOf, sortStr_eq_nil_iff, List.filter_eq_nil_iff] at he
    rw [columnDiffsOf, List.filterMap_eq_nil_iff] at hc
    constructor
    · intro t
      constructor
      · intro ht
        have hmem := hm t ht
        simp at hmem
        exact (keys_introspect_mem_iff db t).mp hmem
      · intro ht
        have hmem := he t ((keys_introspect_mem_iff db t).mpr ht)
        simp at hmem
        exact hmem
    · intro t ecols acols hmem hact c
      have hlook : alistLookup (introspectSchema db) t = some acols := by
        rw [alistLookup_eq_some_iff _ hNi]
        exact (mem_introspect_iff db _).mpr hact
      have hnone := hc (t, ecols) hmem
      simp only [hlook] at hnone
      by_cases hmc : ecols.filter (fun c => !acols.contains c) = [] ∧
          acols.filter (fun c => !ecols.contains c) = []
      · obtain ⟨h1, h2⟩ := hmc
        rw [List.filter_eq_nil_iff] at h1 h2
        constructor
        · intro hce
          have := h1 c hce
          simpa using this
        · intro hca
          have := h2 c hca
          simpa using this
      · exfalso
        rw [not_and_or] at hmc
        rcases hmc with hmc | hmc
        · rw [if_pos (Or.inl hmc)] at hnone
          exact absurd hnone (by simp)
        · rw [if_pos (Or.inr hmc)] at hnone
          exact absurd hnone (by simp)
  · rintro ⟨hkeys, hcols⟩
    refine ⟨?_, ?_, ?_⟩
    · rw [missingTablesOf, sortStr_eq_nil_iff, List.filter_eq_nil_iff]
      intro t ht
      simp
      exact (keys_introspect_mem_iff db t).mpr ((hkeys t).mp ht)
    · rw [extraTablesOf, sortStr_eq_nil_iff, List.filter_eq_nil_iff]
      intro t ht
      simp
      exact (hkeys t).mpr ((keys_introspect_mem_iff db t).mp ht)
    · rw [columnDiffsOf, List.filterMap_eq_nil_iff]
      intro p hp
      rcases hlook : alistLookup (introspectSchema db) p.1 with _ | acols
      · simp [hlook]
      · have hact : (p.1, acols) ∈ dbShape db :=
          (mem_introspect_iff db _).mp (alistLookup_mem _ _ _ hlook)
        have hagree := hcols p.1 p.2 acols hp hact
        have h1 : p.2.filter (fun c => !acols.contains c) = [] := by
          rw [List.filter_eq_nil_iff]
          intro c hc
          simp
          exact (hagree c).mp hc
        have h2 : acols.filter (fun c => !p.2.contains c) = [] := by
          rw [List.filter_eq_nil_iff]
          intro c hc
          simp
          exact (hagree c).mpr hc
        simp [hlook, h1, h2]
        exact ⟨fun x hx => (hagree x).mp hx, fun x hx => (hagree x).mpr hx⟩

theorem validateSchema_eq_error (db : DB) (expected : ExpectedSchema)
    (hcond : missingTablesOf db expected ≠ [] ∨ extraTablesOf db expected ≠ [] ∨
      columnDiffsOf db expected ≠ []) :
    validateSchema db expected = .error (.mismatch "Database schema mismatch."
      (formatSchemaDiff (missingTablesOf db expected) (extraTablesOf db expected)
        (columnDiffsOf db expected))) := by
  simp only [validateSchema]
  rw [if_pos hcond]

theorem validateSchema_eq_ok (db : DB) (expected : ExpectedSchema)
    (hcond : ¬ (missingTablesOf db expected ≠ [] ∨ extraTablesOf db expected ≠ [] ∨
      columnDiffsOf db expected ≠ [])) :
    validateSchema db expected = .ok () := by
  simp only [validateSchema]
  rw [if_neg hcond]

/-- Claim C4: `validate_schema` succeeds exactly when the non-system tables
and their column names match the expected table→column-list mapping as sets
(membership only); when any difference exists it raises `SchemaMismatch`
whose message is the fixed one and whose diff is the multi-section report of
the computed missing tables, extra tables and per-table column differences
(the report includes a section exactly when its list is non-empty); and the
only error it can produce is that `SchemaMismatch`. -/
theorem validate_schema_spec (db : DB) (expected : ExpectedSchema)
    (hN : (alistKeys (dbShape db)).Nodup) :
    (validateSchema db expected = .ok () ↔ schemaAgrees db expected)
    ∧ (∀ m d, validateSchema db expected = .error (.mismatch m d) →
        m = "Database schema mismatch." ∧
        d = formatSchemaDiff (missingTablesOf db expected)
              (extraTablesOf db expected) (columnDiffsOf db expected))
    ∧ (validateSchema db expected = .ok () ∨
        ∃ m d, validateSchema db expected = .error (.mismatch m d)) := by
  by_cases hcond : missingTablesOf db expected ≠ [] ∨ extraTablesOf db expected ≠ [] ∨
      columnDiffsOf db expected ≠ []
  · have herr := validateSchema_eq_error db expected hcond
    refine ⟨?_, ?_, ?_⟩
    · rw [herr]
      simp only [reduceCtorEq, false_iff]
      intro hagree
      rw [← empty_diffs_iff_agrees db expected hN] at hagree
      obtain ⟨h1, h2, h3⟩ := hagree
      rcases hcond with h | h | h
      · exact h h1
      · exact h h2
      · exact h h3
    · intro m d h
      rw [herr] at h
      simp only [Except.error.injEq, SGErr.mismatch.injEq] at h
      exact ⟨h.1.symm, h.2.symm⟩
    · exact Or.inr ⟨_, _, herr⟩
  · have hok := validateSchema_eq_ok db expected hcond
    push_neg at hcond
    refine ⟨?_, ?_, ?_⟩
    · rw [hok]
      simp only [true_iff]
      rw [← empty_diffs_iff_agrees db expected hN]
      exact hcond
    · intro m d h
      rw [hok] at h
      exact absurd h (by simp)
    · exact Or.inl hok

/-- Witness for C4 at a concrete database matching the canonical schema. -/
theorem validate_schema_spec_witness :
    ((alistKeys (dbShape ⟨canonicalTables, []⟩)).Nodup)
    ∧ (validateSchema ⟨canonicalTables, []⟩ expectedCanonical = .ok () ↔
        schemaAgrees ⟨canonicalTables, []⟩ expectedCanonical) :=
  ⟨by decide, (validate_schema_spec ⟨canonicalTables, []⟩ expectedCanonical (by decide)).1⟩

/-! ## Claim C7 — list_projects -/

theorem insertSortedEnt_perm (x : DirEnt) (l : List DirEnt) :
    List.Perm (insertSortedEnt x l) (x :: l) := by
  induction l with
  | nil => simp [insertSortedEnt]
  | cons y ys ih =>
    unfold insertSortedEnt
    split
    · exact List.Perm.refl _
    · exact ((ih.cons y).trans (List.Perm.swap x y ys))

theorem sortEnts_perm (l : List DirEnt) : List.Perm (sortEnts l) l := by
  induction l with
  | nil => simp [sortEnts]
  | cons x xs ih =>
    exact (insertSortedEnt_perm x (sortEnts xs)).trans (ih.cons x)

theorem listProjects_entry_count (l : List DirEnt) :
    (l.filterMap (fun e =>
      match e.manifest with
      | none => none
      | some mf => some (listEntry e.name mf))).length =
    (l.filter (fun e => e.manifest.isSome)).length := by
  induction l with
  | nil => simp
  | cons e es ih =>
    rcases hm : e.manifest with _ | mf
    · simp [hm, ih]
    · simp [hm, ih]

/-- Claim C7, counterexample: a subdirectory whose manifest parses as JSON,
declares version v1 and whose project id equals the directory name, but
lacks the `project_name` key, yields a summary with valid equal to false
(the claim asserts valid equal to true for every such entry). -/
theorem list_projects_counterexample :
    jgetEq [("version", JVal.s "v1"), ("project_id", JVal.s "x")] "version" "v1" = true
    ∧ jgetEq [("version", JVal.s "v1"), ("project_id", JVal.s "x")] "project_id" "x" = true
    ∧ (listProjects true [⟨"x", true,
        some (.parsed [("version", JVal.s "v1"), ("project_id", JVal.s "x")])⟩]).map
        (fun summ => (summ.valid, summ.error.isSome, summ.project_id)) =
        [(false, true, "x")] := by
  decide

/-- Claim C7, amended: `list_projects` never raises for a per-entry problem —
every subdirectory carrying a manifest file yields exactly one summary.  A
subdirectory whose manifest parses as JSON, declares version v1, has a
project id equal to the directory name, *and binds the `project_name`,
`created_at` and `topic_prompt` keys*, yields a summary with valid equal to
true; a manifest whose parse fails, whose version differs, whose id
mismatches — or which passes those checks but lacks one of the three keys —
yields a summary with valid equal to false, the directory name as fallback
project id, placeholder fields and a non-null stringified error. -/
theorem list_projects_spec :
    (∀ entries : List DirEnt,
      (listProjects true entries).length =
        (entries.filter (fun e => e.isDir && e.manifest.isSome)).length)
    ∧ (∀ (name : String) (obj : JObj) (pn ca tp : JVal),
        jgetEq obj "version" "v1" = true →
        jgetEq obj "project_id" name = true →
        jget obj "project_name" = some pn →
        jget obj "created_at" = some ca →
        jget obj "topic_prompt" = some tp →
        listEntry name (.parsed obj) =
          { project_id := name, project_name := pn, project_dir := name,
            created_at := ca, topic_prompt := tp, valid := true, error := none })
    ∧ (∀ name err, listEntry name (.corrupt err) = invalidSummary name err)
    ∧ (∀ (name : String) (obj : JObj),
        jgetEq obj "version" "v1" = false →
        listEntry name (.parsed obj) = invalidSummary name "Unsupported version")
    ∧ (∀ (name : String) (obj : JObj),
        jgetEq obj "version" "v1" = true →
        jgetEq obj "project_id" name = false →
        listEntry name (.parsed obj) = invalidSummary name "project_id mismatch")
    ∧ (∀ name err, (invalidSummary name err).project_id = name ∧
        (invalidSummary name err).valid = false ∧
        (invalidSummary name err).error = some err ∧
        (invalidSummary name err).project_name = .s "(unknown)" ∧
        (invalidSummary name err).created_at = .s "" ∧
        (invalidSummary name err).topic_prompt = .s "") := by
  refine ⟨?_, ?_, ?_, ?_, ?_, ?_⟩
  · intro entries
    unfold listProjects
    rw [if_neg (by simp)]
    rw [listProjects_entry_count]
    have hperm : List.Perm ((sortEnts (entries.filter (fun e => e.isDir))).filter
        (fun e => e.manifest.isSome))
        ((entries.filter (fun e => e.isDir)).filter (fun e => e.manifest.isSome)) :=
      (sortEnts_perm (entries.filter (fun e => e.isDir))).filter _
    rw [hperm.length_eq, List.filter_filter]
    congr 1
    exact List.filter_congr (fun e he => by rw [Bool.and_comm])
  · intro name obj pn ca tp hv hid hpn hca htp
    simp only [listEntry]
    rw [if_neg (by simp [hv]), if_neg (by simp [hid]), hpn, hca, htp]
  · intro name err
    rfl
  · intro name obj hv
    simp only [listEntry]
    rw [if_pos (by simp [hv])]
  · intro name obj hv hid
    simp only [listEntry]
    rw [if_neg (by simp [hv]), if_pos (by simp [hid])]
  · intro name err
    exact ⟨rfl, rfl, rfl, rfl, rfl, rfl⟩

/-- Witness for C7 at concrete entries. -/
theorem list_projects_spec_witness :
    (listProjects true [⟨"y", true, some (.corrupt "Expecting value")⟩,
        ⟨"x", true, some (.parsed [("version", JVal.s "v1"), ("project_id", JVal.s "x"),
          ("project_name", JVal.s "px"), ("created_at", JVal.s "t"),
          ("topic_prompt", JVal.s "tp")])⟩]).length =
      ([⟨"y", true, some (.corrupt "Expecting value")⟩,
        ⟨"x", true, some (.parsed [("version", JVal.s "v1"), ("project_id", JVal.s "x"),
          ("project_name", JVal.s "px"), ("created_at", JVal.s "t"),
          ("topic_prompt", JVal.s "tp")])⟩].filter
        (fun e : DirEnt => e.isDir && e.manifest.isSome)).length
    ∧ listEntry "x" (.parsed [("version", JVal.s "v1"), ("project_id", JVal.s "x"),
        ("project_name", JVal.s "px"), ("created_at", JVal.s "t"),
        ("topic_prompt", JVal.s "tp")]) =
      { project_id := "x", project_name := .s "px", project_dir := "x",
        created_at := .s "t", topic_prompt := .s "tp", valid := true, error := none } :=
  ⟨list_projects_spec.1 _,
    list_projects_spec.2.1 "x" _ (.s "px") (.s "t") (.s "tp")
      (by decide) (by decide) (by decide) (by decide) (by decide)⟩

/-! ## Claim C3 — invalid names and the dollar anchor -/

/-- The configuration exercising the bug: a name with a trailing newline. -/
def cfgNewline : ProjectConfig :=
  { project_name := "abc\n", topic_prompt := "t",
    citation_style := "vancouver", sources := ["pmc"], notes := none }

/-- A creation context for `cfgNewline` with the canonical schema. -/
def ctxNewline : Ctx :=
  { cfg := cfgNewline
    today := "2026-10-12"
    createdAt := "2026-10-12T00:00:00Z"
    uuidHex := "0123abcd"
    sql := canonicalCSql
    expected := expectedCanonical }

/-- Claim C3 (code-bug evidence): the name `abc` followed by a newline fails
the whole-string reading of `^[a-z0-9_]+$`, yet Python `re.match` accepts a
single trailing newline (the dollar anchor matches before it), so
`_validate_config` passes and `create_project` does not fail with
`InvalidName` — on an empty base directory it succeeds outright and promotes
a workspace whose id embeds the newline. -/
theorem invalid_name_trailing_newline_accepted :
    wholeStringNameOk "abc\n" = false
    ∧ pyNameMatch "abc\n" = true
    ∧ validateConfig cfgNewline = .ok ()
    ∧ (createProject ctxNewline
        none ⟨false, false⟩ FsState.emptyBase).result.map (fun x => x.1.project_id)
      = .ok "2026-10-12_abc\n" :=
  ⟨by decide, by decide, by decide, by decide⟩

/-! ## Claim C8 — rollback failure handling -/

/-- Claim C8: when the rollback deletion of the staging directory itself
fails, the raised error is a `FilesystemError` whose cause chain carries the
original failure (which stays inspectable) and the staging directory is left
in place; when the deletion succeeds, or there is no staging directory to
delete, a typed `ProjectCreatorError` is re-raised unchanged (no new cause)
and a non-typed exception is wrapped in the generic `ProjectCreatorError`
chained to it. -/
theorem rollback_error_spec (renv : REnv) (e : Exc) (st : FsState) :
    (st.staging.isSome = true → renv.rmFail = true →
      (rollback renv e st).2 = ⟨.pce (.filesystemError
        "Creation failed and rollback also failed." "rmtree failed"), some e⟩
      ∧ ((rollback renv e st).1.getLastD st).staging.isSome = true)
    ∧ (st.staging.isSome = true → renv.rmFail = false →
      (rollback renv e st).2 = reraise e
      ∧ ((rollback renv e st).1.getLastD st).staging = none)
    ∧ (st.staging = none → (rollback renv e st).2 = reraise e)
    ∧ (∀ pe, reraise (.pce pe) = ⟨.pce pe, none⟩)
    ∧ (∀ s, reraise (.ext s) =
        ⟨.pce (.generic "Project creation failed." s), some (.ext s)⟩) := by
  rcases hs : st.staging with _ | w <;> rcases hl : renv.logFail <;>
    rcases hr : renv.rmFail <;>
      simp [rollback, hs, hl, hr, reraise, Workspace.appendLog]

/-- Witness for C8: a failed `rmtree` escalates to `FilesystemError` chained
to the original error at a concrete state. -/
theorem rollback_error_spec_witness :
    ((⟨true, [], some Workspace.empty, none, false⟩ : FsState).staging.isSome = true)
    ∧ ((⟨false, true⟩ : REnv).rmFail = true)
    ∧ (rollback ⟨false, true⟩ (.ext "boom")
        ⟨true, [], some Workspace.empty, none, false⟩).2 =
      ⟨.pce (.filesystemError "Creation failed and rollback also failed."
        "rmtree failed"), some (.ext "boom")⟩ :=
  ⟨by decide, by decide,
    ((rollback_error_spec ⟨false, true⟩ (.ext "boom")
      ⟨true, [], some Workspace.empty, none, false⟩).1 (by decide) (by decide)).1⟩

/-! ## Run-level lemmas shared by the creation claims -/

/-- The manifest written by `create_project` always re-validates against the
final directory name it is about to be promoted to. -/
theorem validateManifestV1_manifestDict (cfg : ProjectConfig)
    (pid createdAt : String) :
    validateManifestV1 (manifestDict cfg pid createdAt) pid = .ok () := by
  simp [validateManifestV1, manifestDict, requiredManifestKeys, jget, jgetEq,
    List.find?]

/-- The database stamped during creation from the canonical script. -/
theorem stamp_canonical :
    upsertSchemaMeta ⟨canonicalTables, []⟩ "v1" "c4n0n1c4lh4sh" =
      .ok ⟨canonicalTables, [("schema_version", "v1"),
        ("schema_hash", "c4n0n1c4lh4sh")]⟩ := by
  decide

/-- The freshly stamped canonical database passes the marker check. -/
theorem verify_canonical :
    verifySchemaMeta ⟨canonicalTables, [("schema_version", "v1"),
      ("schema_hash", "c4n0n1c4lh4sh")]⟩ "v1" "c4n0n1c4lh4sh" =
      .ok () := by
  decide

/-- The canonical script produces exactly the expected shape. -/
theorem validate_canonical :
    validateSchema ⟨canonicalTables, [("schema_version", "v1"),
      ("schema_hash", "c4n0n1c4lh4sh")]⟩ expectedCanonical = .ok () := by
  decide

/-! ## Claim C10 — failure after promotion leaves the workspace -/

/-- Claim C10: once the rename has promoted the staging directory, a failure
in the subsequent `create.finalized` log append is handled by a rollback
path that only checks for (and would only remove) the staging path — the
promoted workspace directory stays on disk, complete, while `create_project`
still raises (the non-typed I/O error, wrapped in the generic
`ProjectCreatorError`). -/
theorem failure_after_promotion_keeps_workspace (cfg : ProjectConfig)
    (today createdAt uuidHex : String)
    (hval : validateConfig cfg = .ok ()) :
    (createProject ⟨cfg, today, createdAt, uuidHex, canonicalCSql, expectedCanonical⟩
        (some 21) ⟨false, false⟩ FsState.emptyBase).result =
      .error ⟨.pce (.generic "Project creation failed." "OSError"), some (.ext "OSError")⟩
    ∧ ∃ w, ((createProject ⟨cfg, today, createdAt, uuidHex, canonicalCSql, expectedCanonical⟩
        (some 21) ⟨false, false⟩ FsState.emptyBase).lastState FsState.emptyBase).final = some w
      ∧ w.isComplete := by
  have hman := validateManifestV1_manifestDict cfg (today ++ "_" ++ cfg.project_name)
    createdAt
  constructor
  · simp [createProject, hval, scanForProjectName, FsState.emptyBase, runOps,
      createOps, stagingSubfolders, stepOp, envFails, decEnv, Workspace.empty,
      DB.empty, Workspace.appendLog, canonicalCSql, stamp_canonical, verify_canonical,
      validate_canonical, computeSchemaHash, projectId, hman, rollback, reraise,
      Except.map]
  · refine ⟨⟨stagingSubfolders,
      ["create.start", "create.dirs_created", "create.db_init", "create.schema_validated"],
      some ⟨canonicalTables, [("schema_version", "v1"), ("schema_hash", "c4n0n1c4lh4sh")]⟩,
      some (.parsed (manifestDict cfg (today ++ "_" ++ cfg.project_name) createdAt))⟩,
      ?_, ?_⟩
    · simp [createProject, hval, scanForProjectName, FsState.emptyBase, runOps,
        createOps, stagingSubfolders, stepOp, envFails, decEnv, Workspace.empty,
        DB.empty, Workspace.appendLog, canonicalCSql, stamp_canonical, verify_canonical,
        validate_canonical, computeSchemaHash, projectId, hman, rollback, reraise,
        Except.map, RunOut.lastState]
    · constructor
      · rfl
      · exact ⟨rfl, rfl⟩

/-! ## Claim C2 — create followed by open -/

/-- Claim C2: for every configuration that passes validation, run against an
empty base directory with the repository canonical schema (and no
environment failure), `create_project` succeeds, and `open_project` called
immediately on the returned project directory with the same expected schema
and canonical schema text also succeeds and returns the same project id. -/
theorem create_then_open_roundtrip (cfg : ProjectConfig)
    (today createdAt uuidHex : String)
    (hval : validateConfig cfg = .ok ()) :
    ∃ info stF w,
      (createProject ⟨cfg, today, createdAt, uuidHex, canonicalCSql, expectedCanonical⟩
          none ⟨false, false⟩ FsState.emptyBase).result = .ok (info, stF)
      ∧ info.project_id =
          projectId ⟨cfg, today, createdAt, uuidHex, canonicalCSql, expectedCanonical⟩
      ∧ info.status = "created"
      ∧ stF.final = some w
      ∧ openProject expectedCanonical canonicalCSql info.project_id (some w) =
          .ok ⟨info.project_id, "opened"⟩ := by
  have hman := validateManifestV1_manifestDict cfg (today ++ "_" ++ cfg.project_name)
    createdAt
  refine ⟨⟨today ++ "_" ++ cfg.project_name, "created"⟩,
    ⟨true, [], none,
      some ⟨stagingSubfolders,
        ["create.start", "create.dirs_created", "create.db_init",
         "create.schema_validated", "create.finalized"],
        some ⟨canonicalTables, [("schema_version", "v1"), ("schema_hash", "c4n0n1c4lh4sh")]⟩,
        some (.parsed (manifestDict cfg (today ++ "_" ++ cfg.project_name) createdAt))⟩,
      false⟩,
    ⟨stagingSubfolders,
      ["create.start", "create.dirs_created", "create.db_init",
       "create.schema_validated", "create.finalized"],
      some ⟨canonicalTables, [("schema_version", "v1"), ("schema_hash", "c4n0n1c4lh4sh")]⟩,
      some (.parsed (manifestDict cfg (today ++ "_" ++ cfg.project_name) createdAt))⟩,
    ?_, ?_, rfl, rfl, ?_⟩
  · simp [createProject, hval, scanForProjectName, FsState.emptyBase, runOps,
      createOps, stagingSubfolders, stepOp, envFails, decEnv, Workspace.empty,
      DB.empty, Workspace.appendLog, canonicalCSql, stamp_canonical, verify_canonical,
      validate_canonical, computeSchemaHash, projectId, hman, Except.map]
  · simp [projectId]
  · have hman2 := hman
    simp only [manifestDict, List.cons_append, List.nil_append] at hman2
    simp [openProject, hman2, canonicalCSql, computeSchemaHash, verify_canonical,
      validate_canonical, jgetS, jget, manifestDict, List.find?]

/-- Witness for C2 at the concrete configuration. -/
theorem create_then_open_roundtrip_witness :
    (validateConfig cfgA = .ok ())
    ∧ ∃ info stF w,
      (createProject ⟨cfgA, "2026-10-12", "2026-10-12T00:00:00Z", "0123abcd",
          canonicalCSql, expectedCanonical⟩
          none ⟨false, false⟩ FsState.emptyBase).result = .ok (info, stF)
      ∧ info.project_id =
          projectId ⟨cfgA, "2026-10-12", "2026-10-12T00:00:00Z", "0123abcd",
            canonicalCSql, expectedCanonical⟩
      ∧ info.status = "created"
      ∧ stF.final = some w
      ∧ openProject expectedCanonical canonicalCSql info.project_id (some w) =
          .ok ⟨info.project_id, "opened"⟩ :=
  ⟨by decide,
    create_then_open_roundtrip cfgA "2026-10-12" "2026-10-12T00:00:00Z" "0123abcd"
      (by decide)⟩

/-- Witness for C10 at the concrete configuration. -/
theorem failure_after_promotion_keeps_workspace_witness :
    (validateConfig cfgA = .ok ())
    ∧ ((createProject ⟨cfgA, "2026-10-12", "2026-10-12T00:00:00Z", "0123abcd",
          canonicalCSql, expectedCanonical⟩
          (some 21) ⟨false, false⟩ FsState.emptyBase).result =
        .error ⟨.pce (.generic "Project creation failed." "OSError"), some (.ext "OSError")⟩
      ∧ ∃ w, ((createProject ⟨cfgA, "2026-10-12", "2026-10-12T00:00:00Z", "0123abcd",
          canonicalCSql, expectedCanonical⟩
          (some 21) ⟨false, false⟩ FsState.emptyBase).lastState FsState.emptyBase).final = some w
        ∧ w.isComplete) :=
  ⟨by decide,
    failure_after_promotion_keeps_workspace cfgA "2026-10-12" "2026-10-12T00:00:00Z"
      "0123abcd" (by decide)⟩

/-! ## Claim C1 — atomicity of creation -/

/-- The final-name directory is never observable partially built: it is
either absent or holds a complete workspace. -/
def finalInv (st : FsState) : Prop :=
  st.final = none ∨ ∃ w, st.final = some w ∧ w.isComplete

/-- The rollback handler never touches the final directory. -/
theorem rollback_mem_final (renv : REnv) (e : Exc) (st : FsState) :
    ∀ s ∈ (rollback renv e st).1, s.final = st.final := by
  rcases hs : st.staging with _ | w <;> rcases hl : renv.logFail <;>
    rcases hr : renv.rmFail <;>
      simp [rollback, hs, hl, hr, Workspace.appendLog]

/-- After a rollback, either the staging directory is gone from the last
observable state, or the raised error is the `FilesystemError` of a failed
deletion. -/
theorem rollback_last_staging (renv : REnv) (e : Exc) (st : FsState) :
    ((rollback renv e st).1.getLastD st).staging = none ∨
      (rollback renv e st).2.exc = .pce (.filesystemError
        "Creation failed and rollback also failed." "rmtree failed") := by
  rcases hs : st.staging with _ | w <;> rcases hl : renv.logFail <;>
    rcases hr : renv.rmFail <;>
      simp [rollback, hs, hl, hr, Workspace.appendLog, reraise]

/-- A maximal no-failure run starts at its input state. -/
theorem okStates_self (ctx : Ctx) (ops : List COp) (st : FsState) :
    st ∈ okStates ctx ops st := by
  cases ops <;> simp [okStates]

/-- Every state visited by a run is a state of the maximal no-failure run,
or a rollback image of one. -/
theorem runOps_trace_cases (ctx : Ctx) (renv : REnv) :
    ∀ (ops : List COp) (env : Option Nat) (st s : FsState),
      s ∈ (runOps ctx renv ops env st).1 →
      s ∈ okStates ctx ops st ∨
        ∃ e s₀, s₀ ∈ okStates ctx ops st ∧ s ∈ (rollback renv e s₀).1 := by
  intro ops
  induction ops with
  | nil =>
    intro env st s hmem
    simp [runOps] at hmem
  | cons op rest ih =>
    intro env st s hmem
    rw [runOps] at hmem
    rcases henv : envFails env with _ | _
    · rw [henv] at hmem
      simp only [Bool.false_eq_true, if_false] at hmem
      rcases hstep : stepOp ctx op st with e | st'
      · rw [hstep] at hmem
        exact Or.inr ⟨e, st, okStates_self ctx _ st, hmem⟩
      · rw [hstep] at hmem
        simp only [List.mem_cons] at hmem
        rcases hmem with rfl | hmem
        · left
          rw [show okStates ctx (op :: rest) st =
              st :: okStates ctx rest s from by rw [okStates, hstep]]
          exact List.mem_cons_of_mem _ (okStates_self ctx _ s)
        · rcases ih (decEnv env) st' s hmem with hin | ⟨e, s₀, hs₀, hrb⟩
          · left
            rw [show okStates ctx (op :: rest) st =
                st :: okStates ctx rest st' from by rw [okStates, hstep]]
            exact List.mem_cons_of_mem _ hin
          · refine Or.inr ⟨e, s₀, ?_, hrb⟩
            rw [show okStates ctx (op :: rest) st =
                st :: okStates ctx rest st' from by rw [okStates, hstep]]
            exact List.mem_cons_of_mem _ hs₀
    · rw [henv] at hmem
      simp only [if_true] at hmem
      exact Or.inr ⟨.ext "OSError", st, okStates_self ctx _ st, hmem⟩

/-- In an errored run, the last observable state has no staging directory
unless the raised error is the rollback `FilesystemError`. -/
theorem runOps_error_staging (ctx : Ctx) (renv : REnv) :
    ∀ (ops : List COp) (env : Option Nat) (st : FsState) (r : Raised),
      (runOps ctx renv ops env st).2 = .error r →
      ((runOps ctx renv ops env st).1.getLastD st).staging = none ∨
        r.exc = .pce (.filesystemError
          "Creation failed and rollback also failed." "rmtree failed") := by
  intro ops
  induction ops with
  | nil =>
    intro env st r hres
    simp [runOps] at hres
  | cons op rest ih =>
    intro env st r hres
    rw [runOps] at hres
    rw [runOps]
    rcases henv : envFails env with _ | _
    · simp only [henv, Bool.false_eq_true, if_false, eq_self_iff_true, if_true] at hres ⊢
      rcases hstep : stepOp ctx op st with e | st'
      · try simp only [hstep] at hres ⊢
        try dsimp only at hres ⊢
        have heq : (rollback renv e st).2 = r := by
          simp only [Except.error.injEq] at hres
          exact hres
        rw [← heq]
        exact rollback_last_staging renv e st
      · try simp only [hstep] at hres ⊢
        try dsimp only at hres ⊢
        rw [List.getLastD_cons]
        exact ih (decEnv env) st' r hres
    · simp only [henv, Bool.false_eq_true, if_false, eq_self_iff_true, if_true] at hres ⊢
      have heq : (rollback renv (.ext "OSError") st).2 = r := by
        simp only [Except.error.injEq] at hres
        exact hres
      rw [← heq]
      exact rollback_last_staging renv (.ext "OSError") st

set_option maxHeartbeats 2000000

/-- A no-failure execution of the create operations only ever exhibits the
final directory as absent or as a complete workspace, whatever the DDL
script, expected schema and configuration are. -/
theorem okStates_finalInv (ctx : Ctx) (st₀ : FsState)
    (hs : st₀.staging = none) (hf : st₀.final = none) :
    ∀ s ∈ okStates ctx createOps st₀, finalInv s := by
  intro s hmem
  cases hsql : ctx.sql.valid with
  | false =>
    simp [okStates, createOps, stagingSubfolders, stepOp, hs, hsql,
      Workspace.empty, DB.empty, Workspace.appendLog] at hmem
    rcases hmem with rfl | rfl | rfl | rfl | rfl | rfl | rfl | rfl | rfl | rfl | rfl | rfl | rfl
    all_goals first
      | exact Or.inl rfl
      | exact Or.inl hf
  | true =>
    by_cases hmeta : DB.hasTable ⟨ctx.sql.effect, []⟩ "schema_meta" = true
    · have hstampok : upsertSchemaMeta ⟨ctx.sql.effect, []⟩ "v1" (computeSchemaHash ctx.sql) =
          .ok ⟨ctx.sql.effect, [("schema_version", "v1"),
            ("schema_hash", computeSchemaHash ctx.sql)]⟩ := by
        simp [upsertSchemaMeta, hmeta, insertOrIgnore]
      have hmeta2 : DB.hasTable ⟨ctx.sql.effect, [("schema_version", "v1"),
          ("schema_hash", computeSchemaHash ctx.sql)]⟩ "schema_meta" = true := hmeta
      have hverify : verifySchemaMeta ⟨ctx.sql.effect, [("schema_version", "v1"),
          ("schema_hash", computeSchemaHash ctx.sql)]⟩ "v1" (computeSchemaHash ctx.sql) =
          .ok () := by
        simp [verifySchemaMeta, hmeta2, DB.metaLookup, List.find?]
      have hman := validateManifestV1_manifestDict ctx.cfg (projectId ctx) ctx.createdAt
      by_cases hcond : missingTablesOf ⟨ctx.sql.effect, [("schema_version", "v1"),
            ("schema_hash", computeSchemaHash ctx.sql)]⟩ ctx.expected ≠ [] ∨
          extraTablesOf ⟨ctx.sql.effect, [("schema_version", "v1"),
            ("schema_hash", computeSchemaHash ctx.sql)]⟩ ctx.expected ≠ [] ∨
          columnDiffsOf ⟨ctx.sql.effect, [("schema_version", "v1"),
            ("schema_hash", computeSchemaHash ctx.sql)]⟩ ctx.expected ≠ []
      · have herr := validateSchema_eq_error ⟨ctx.sql.effect, [("schema_version", "v1"),
          ("schema_hash", computeSchemaHash ctx.sql)]⟩ ctx.expected hcond
        simp [okStates, createOps, stagingSubfolders, stepOp, hs, hf, hsql,
          hstampok, hverify, herr, Workspace.empty, DB.empty, Workspace.appendLog] at hmem
        rcases hmem with rfl | rfl | rfl | rfl | rfl | rfl | rfl | rfl | rfl | rfl | rfl | rfl | rfl | rfl | rfl | rfl
        all_goals first
          | exact Or.inl rfl
          | exact Or.inl hf
      · have hok := validateSchema_eq_ok ⟨ctx.sql.effect, [("schema_version", "v1"),
          ("schema_hash", computeSchemaHash ctx.sql)]⟩ ctx.expected hcond
        simp [okStates, createOps, stagingSubfolders, stepOp, hs, hf, hsql,
          hstampok, hverify, hok, hman, Workspace.empty, DB.empty,
          Workspace.appendLog] at hmem
        rcases hmem with rfl | rfl | rfl | rfl | rfl | rfl | rfl | rfl | rfl | rfl | rfl | rfl | rfl | rfl | rfl | rfl | rfl | rfl | rfl | rfl | rfl | rfl | rfl
        all_goals first
          | exact Or.inl rfl
          | exact Or.inl hf
          | exact Or.inr ⟨_, rfl, rfl, rfl, rfl⟩
    · have hstamperr : upsertSchemaMeta ⟨ctx.sql.effect, []⟩ "v1" (computeSchemaHash ctx.sql) =
          .error (.sqlErr "no such table: schema_meta") := by
        simp [upsertSchemaMeta, hmeta]
      simp [okStates, createOps, stagingSubfolders, stepOp, hs, hsql,
        hstamperr, Workspace.empty, DB.empty, Workspace.appendLog] at hmem
      rcases hmem with rfl | rfl | rfl | rfl | rfl | rfl | rfl | rfl | rfl | rfl | rfl | rfl | rfl | rfl
      all_goals first
        | exact Or.inl rfl
        | exact Or.inl hf

/-- Claim C1, counterexample: when the rollback deletion itself fails, the
error propagates (as `FilesystemError`) while the staging directory is still
present in the last observable state — the staging directory is not always
deleted before an error propagates, contrary to the claim as stated. -/
theorem create_project_atomicity_counterexample :
    (createProject ctxA (some 5) ⟨false, true⟩ FsState.emptyBase).result =
      .error ⟨.pce (.filesystemError
        "Creation failed and rollback also failed." "rmtree failed"),
        some (.ext "OSError")⟩
    ∧ ((createProject ctxA (some 5) ⟨false, true⟩ FsState.emptyBase).lastState
        FsState.emptyBase).staging.isSome = true :=
  ⟨by decide, by decide⟩

/-- Claim C1, amended: in every execution of `create_project` that starts
with the final directory name unused (and a fresh staging name), the final
directory is at every observable step either absent or a fully promoted,
complete workspace — never partially built (the workspace is staged only
under the private temp name, which carries the `.tmp_` prefix); and whenever
an error propagates after staging began, the staging directory has been
deleted before the error reaches the caller, *unless the deletion itself
failed*, in which case the propagated error is the rollback
`FilesystemError` and the staging directory may remain. -/
theorem create_project_atomicity (ctx : Ctx) (env : Option Nat) (renv : REnv)
    (st₀ : FsState) (hs : st₀.staging = none) (hf : st₀.final = none) :
    (∀ s ∈ (createProject ctx env renv st₀).trace, finalInv s)
    ∧ (∀ r, (createProject ctx env renv st₀).result = .error r →
        ((createProject ctx env renv st₀).lastState st₀).staging = none ∨
          r.exc = .pce (.filesystemError
            "Creation failed and rollback also failed." "rmtree failed"))
    ∧ (∃ suffix, stagingName ctx = ".tmp_" ++ suffix) := by
  have hsuffix : ∃ suffix, stagingName ctx = ".tmp_" ++ suffix :=
    ⟨projectId ctx ++ "_" ++ ctx.uuidHex, by simp [stagingName, String.append_assoc]⟩
  rcases hval : validateConfig ctx.cfg with pe | u
  · have hcp : createProject ctx env renv st₀ = ⟨[st₀], .error ⟨.pce pe, none⟩⟩ := by
      simp [createProject, hval]
    refine ⟨?_, ?_, hsuffix⟩
    · rw [hcp]
      intro s hmem
      simp at hmem
      subst hmem
      exact Or.inl hf
    · intro r hres
      rw [hcp]
      exact Or.inl hs
  · by_cases hscan : scanForProjectName st₀ ctx ctx.cfg.project_name = []
    · have hcp : createProject ctx env renv st₀ =
          ⟨st₀ :: (runOps ctx renv createOps env st₀).1,
            (runOps ctx renv createOps env st₀).2.map
              (fun stF => (⟨projectId ctx, "created"⟩, stF))⟩ := by
        simp [createProject, hval, hscan, hf]
      refine ⟨?_, ?_, hsuffix⟩
      · rw [hcp]
        intro s hmem
        simp only [List.mem_cons] at hmem
        rcases hmem with rfl | hmem
        · exact Or.inl hf
        · rcases runOps_trace_cases ctx renv createOps env st₀ s hmem with hin |
            ⟨e, s₀, hs₀, hrb⟩
          · exact okStates_finalInv ctx st₀ hs hf s hin
          · have heq := rollback_mem_final renv e s₀ s hrb
            rcases okStates_finalInv ctx st₀ hs hf s₀ hs₀ with h | ⟨w, hw, hc⟩
            · exact Or.inl (heq.trans h)
            · exact Or.inr ⟨w, heq.trans hw, hc⟩
      · intro r hres
        rw [hcp] at hres ⊢
        rcases hrun : (runOps ctx renv createOps env st₀).2 with r2 | stF
        · rw [hrun] at hres
          have hr : r2 = r := by
            simpa [Except.map] using hres
          subst hr
          have := runOps_error_staging ctx renv createOps env st₀ r2 hrun
          dsimp only [RunOut.lastState]
          rw [List.getLastD_cons]
          exact this
        · rw [hrun] at hres
          simp [Except.map] at hres
    · have hcp : createProject ctx env renv st₀ = ⟨[st₀], .error ⟨.pce (.duplicateName
          ("Duplicate project_name " ++ pyRepr ctx.cfg.project_name ++ " already exists.")
          ("found_in=" ++ String.intercalate ","
            (scanForProjectName st₀ ctx ctx.cfg.project_name))), none⟩⟩ := by
        simp [createProject, hval, hscan]
      refine ⟨?_, ?_, hsuffix⟩
      · rw [hcp]
        intro s hmem
        simp at hmem
        subst hmem
        exact Or.inl hf
      · intro r hres
        rw [hcp]
        exact Or.inl hs

/-- Witness for C1 at a concrete context, environment and empty base state. -/
theorem create_project_atomicity_witness :
    ((FsState.emptyBase.staging = none) ∧ (FsState.emptyBase.final = none))
    ∧ ((∀ s ∈ (createProject ctxA (some 5) ⟨false, true⟩ FsState.emptyBase).trace, finalInv s)
      ∧ (∀ r, (createProject ctxA (some 5) ⟨false, true⟩ FsState.emptyBase).result = .error r →
          ((createProject ctxA (some 5) ⟨false, true⟩ FsState.emptyBase).lastState
            FsState.emptyBase).staging = none ∨
            r.exc = .pce (.filesystemError
              "Creation failed and rollback also failed." "rmtree failed"))
      ∧ (∃ suffix, stagingName ctxA = ".tmp_" ++ suffix)) :=
  ⟨⟨rfl, rfl⟩,
    create_project_atomicity ctxA (some 5) ⟨false, true⟩ FsState.emptyBase rfl rfl⟩

end ProjectCreator
